import Mathlib

/-!
Verification of the audio recording core of a push-to-talk dictation
utility (`ptt_gui/core.py`, `ptt.py`, `ptt_gui/app.py`).

The embedding models:

* `Recorder` (`ptt_gui/core.py`, class `Recorder`): the recording-session
  state machine.  Its mutable state is the chunk accumulator `_frames`,
  the `_recording` flag, the PortAudio stream handle `_stream`
  (modelled as the boolean `streamOpen`, true iff the handle is not
  `None`) and the `_stream_ready` event.  Real time is abstracted:
  `stop()`'s `self._stream_ready.wait(timeout=2.0)` is a bounded wait
  that returns with or without the event set, so in the model `stop`
  simply proceeds; its totality reflects that the wait cannot block
  forever.  The lock `_lock` serialises the Python methods; the model
  runs each method atomically, which is the interleaving-free view the
  functional claims quantify over.
* chunks: the device delivers `(blocksize, CHANNELS)` int16 arrays with
  `CHANNELS = 1`, so a chunk is modelled as its list of samples
  (`List Int`); `numpy.flatten` on a one-column array is the identity on
  that list, and `numpy.concatenate` along axis 0 followed by `flatten`
  is `List.flatten`.
* `rms_level` (`ptt_gui/core.py`): the float32 arithmetic is modelled by
  exact arithmetic (`ℚ` for the mean of squares, `ℝ` for the square
  root).
* `transcribe` (`ptt_gui/core.py` / `ptt.py`): only its zero-length
  early-return path is in scope; the Whisper model call and the
  temporary WAV file are abstracted as an effect record.
* the release-time controller step (`ptt_gui/app.py`,
  `PTTWindow._stop_recording`; same shape as the `duration < 0.3` check
  in `ptt.py`, `run`): stop the recorder, compute the duration, and
  either report a too-short outcome or hand the buffer to the
  transcription engine.
-/

abbrev Sample := Int

/-- One audio chunk as delivered by the capture callback: the sample list
of a `(blocksize, 1)` int16 array. -/
abbrev Chunk := List Sample

/-- SAMPLE_RATE = 16000 (`ptt_gui/core.py`). -/
def SAMPLE_RATE : ℕ := 16000

/-- CHANNELS = 1 (`ptt_gui/core.py`). -/
def CHANNELS : ℕ := 1

/-- BLOCK_SIZE = 1024 (`ptt_gui/core.py`). -/
def BLOCK_SIZE : ℕ := 1024

/-- Errors a device open can raise (`sd.InputStream` failing inside
`Recorder.start`). -/
inductive DeviceError
  | deviceUnavailable
  deriving DecidableEq

/-- State of `ptt_gui.core.Recorder`: `_frames`, `_recording`, `_stream`
(`streamOpen` is true iff the handle is not `None`) and the
`_stream_ready` event. -/
structure Recorder where
  frames : List Chunk
  recording : Bool
  streamOpen : Bool
  streamReady : Bool
  deriving DecidableEq

/-- `Recorder.__init__`: empty accumulator, not recording, no stream,
`_stream_ready` unset. -/
def Recorder.init : Recorder :=
  { frames := [], recording := false, streamOpen := false, streamReady := false }

/-- `Recorder.stop`: clears `_recording`, waits (bounded, ≤ 2 s) on
`_stream_ready`, closes and drops the stream handle (exceptions during
close are swallowed), snapshots `_frames` (the accumulator itself is not
cleared), and returns the chunks concatenated and flattened
(`np.concatenate(frames, axis=0).flatten()`), or the empty array when no
chunks were captured. -/
def Recorder.stop (r : Recorder) : List Sample × Recorder :=
  let r1 : Recorder := { r with recording := false }
  let r2 : Recorder := { r1 with streamOpen := false }
  let frames := r2.frames
  (if frames.isEmpty then [] else frames.flatten, r2)

/-- `Recorder.start`: first calls `self.stop()` (discarding its result),
then under the lock resets `_frames`, sets `_recording`, clears
`_stream_ready`, and opens and starts the input stream, finally setting
`_stream_ready`.  The parameter `openOk` models whether
`sd.InputStream(...)` succeeds; when it raises, the exception propagates
to the caller (the returned `Option DeviceError`) and the state
mutations made before the open persist. -/
def Recorder.start (r : Recorder) (openOk : Bool) : Recorder × Option DeviceError :=
  let r0 := (r.stop).2
  let r1 : Recorder := { r0 with frames := [], recording := true, streamReady := false }
  if openOk then
    ({ r1 with streamOpen := true, streamReady := true }, none)
  else
    (r1, some DeviceError.deviceUnavailable)

/-- `Recorder._callback` (PortAudio thread): when `_recording` is set,
appends a copy of `indata` to `_frames` and, if an `on_chunk` observer is
registered, invokes it with `chunk.flatten()` (with one channel, the
chunk's sample list); an observer exception is swallowed by the
`try/except`.  The second component records the arguments the observer
was invoked with. -/
def Recorder.callback (r : Recorder)
    (obs : Option (List Sample → Except String Unit)) (indata : Chunk) :
    Recorder × List (List Sample) :=
  if r.recording then
    let chunk := indata
    let r' : Recorder := { r with frames := r.frames ++ [chunk] }
    match obs with
    | none => (r', [])
    | some f =>
      match f chunk with
      | Except.ok _ => (r', [chunk])
      | Except.error _ => (r', [chunk])
  else (r, [])

/-- Delivery of a sequence of chunks to the capture callback, in device
order. -/
def Recorder.deliverAll (r : Recorder)
    (obs : Option (List Sample → Except String Unit)) (chunks : List Chunk) : Recorder :=
  chunks.foldl (fun s c => (s.callback obs c).1) r

/-- Sum of squared samples of a chunk, in exact arithmetic
(`chunk.astype(np.float32) ** 2`, summed). -/
def sumSq (chunk : List Sample) : ℚ :=
  (chunk.map (fun s : Sample => (s : ℚ) * (s : ℚ))).sum

/-- Mean of squared samples (`np.mean(chunk.astype(np.float32) ** 2)`). -/
def meanSq (chunk : List Sample) : ℚ :=
  sumSq chunk / (chunk.length : ℚ)

/-- `rms_level` (`ptt_gui/core.py`): returns 0.0 for an empty chunk,
otherwise `min(sqrt(mean(chunk ** 2)) / 32768.0, 1.0)`; float32
arithmetic is modelled exactly. -/
noncomputable def rms_level (chunk : List Sample) : ℝ :=
  if chunk.length = 0 then 0
  else min (Real.sqrt ((meanSq chunk : ℚ) : ℝ) / 32768) 1

/-- The level-meter formula as the spec words it (root-mean-square of the
samples divided by the maximum representable magnitude, clamped to 1.0,
0.0 for an empty chunk), stated independently of `rms_level` for the
refinement comparison. -/
noncomputable def rmsSpec (chunk : List Sample) : ℝ :=
  if chunk = [] then 0
  else
    min (Real.sqrt ((((chunk.map (fun s : Sample => (s : ℚ) ^ 2)).sum / (chunk.length : ℚ) : ℚ) : ℝ)) / 32768) 1

/-- Effects of one `transcribe` call that the zero-length early return
must avoid: writing the temporary WAV file and invoking the Whisper
model. -/
structure TranscribeEffects where
  wroteTempFile : Bool
  invokedModel : Bool
  deriving DecidableEq

/-- `transcribe` (`ptt_gui/core.py` / `ptt.py`): with zero-length input
it returns the empty string before the temp-file write and the model
call; otherwise it writes the WAV file, runs the model, and returns the
segment texts joined by spaces and stripped.  The parameter `segments`
abstracts the segment texts the Whisper model yields for this audio. -/
def transcribe (segments : List String) (samples : List Sample) :
    String × TranscribeEffects :=
  if samples.length = 0 then
    ("", { wroteTempFile := false, invokedModel := false })
  else
    ((String.intercalate " " segments).trim,
      { wroteTempFile := true, invokedModel := true })

/-- Outcome of one trigger-release step, as delivered to the sink. -/
inductive SinkEvent
  | tooShort (duration : ℚ)
  | result (text : String)
  deriving DecidableEq

/-- Minimum recording duration in seconds: `self.min_duration = 0.3` in
`ptt_gui/app.py` (the same constant is hard-coded as `0.3` in
`ptt.py`). -/
def min_duration : ℚ := 3 / 10

/-- The trigger-release controller step (`PTTWindow._stop_recording` in
`ptt_gui/app.py`; the same shape as the release branch of `run` in
`ptt.py`): stop the recorder, compute `duration = len(audio) / 16000`,
and either report a too-short outcome (skipping transcription) or hand
the buffer to the transcription engine and deliver its text. -/
def stopAndTranscribe (r : Recorder) (minDur : ℚ)
    (engine : List Sample → String) : SinkEvent × Recorder :=
  let res := r.stop
  let duration : ℚ := (res.1.length : ℚ) / (SAMPLE_RATE : ℚ)
  if duration < minDur then (SinkEvent.tooShort duration, res.2)
  else (SinkEvent.result (engine res.1), res.2)

-- Helper lemmas -------------------------------------------------------------

theorem callback_fst (r : Recorder) (obs : Option (List Sample → Except String Unit))
    (c : Chunk) :
    (r.callback obs c).1 =
      if r.recording then { r with frames := r.frames ++ [c] } else r := by
  unfold Recorder.callback
  by_cases h : r.recording
  · simp only [h, if_true]
    cases obs with
    | none => rfl
    | some f => cases hfc : f c <;> simp [hfc]
  · simp [h]

theorem stop_fst (r : Recorder) : (r.stop).1 = r.frames.flatten := by
  unfold Recorder.stop
  by_cases h : r.frames.isEmpty
  · simp_all [List.isEmpty_iff]
  · simp [h]

theorem stop_snd (r : Recorder) :
    (r.stop).2 = { r with recording := false, streamOpen := false } := rfl

theorem start_true (r : Recorder) :
    r.start true =
      ({ frames := [], recording := true, streamOpen := true, streamReady := true },
        none) := rfl

theorem deliverAll_frames (obs : Option (List Sample → Except String Unit))
    (cs : List Chunk) :
    ∀ r : Recorder, r.recording = true →
      (r.deliverAll obs cs).frames = r.frames ++ cs ∧
        (r.deliverAll obs cs).recording = true := by
  induction cs with
  | nil => intro r h; simp [Recorder.deliverAll, h]
  | cons c cs ih =>
    intro r h
    have hstep : (r.callback obs c).1 = { r with frames := r.frames ++ [c] } := by
      rw [callback_fst, if_pos]; exact h
    have hrec : ({ r with frames := r.frames ++ [c] } : Recorder).recording = true := h
    have := ih { r with frames := r.frames ++ [c] } hrec
    simp only [Recorder.deliverAll, List.foldl_cons] at *
    rw [hstep]
    refine ⟨?_, this.2⟩
    rw [this.1]
    simp

theorem started_deliver_stop (r : Recorder)
    (obs : Option (List Sample → Except String Unit)) (cs : List Chunk) :
    ((((r.start true).1).deliverAll obs cs).stop).1 = cs.flatten := by
  have hstart : (r.start true).1 =
      { frames := [], recording := true, streamOpen := true, streamReady := true } := by
    rw [start_true]
  rw [hstart, stop_fst]
  have h := deliverAll_frames obs cs
    { frames := [], recording := true, streamOpen := true, streamReady := true } rfl
  rw [h.1]
  simp

/-- C1: every sequence of chunks delivered to the capture callback
between a `start()` and the next `stop()` is returned by that `stop()`
as their concatenation, in delivery order, flattened to a single mono
sample sequence. -/
theorem recorder_stop_returns_delivered_chunks (r : Recorder)
    (obs : Option (List Sample → Except String Unit)) (cs : List Chunk) :
    ((((r.start true).1).deliverAll obs cs).stop).1 = cs.flatten :=
  started_deliver_stop r obs cs

/-- C2 counterexample: after a session that captured the chunk `[1, 2]`,
the first `stop()` returns `[1, 2]` and the immediately following
`stop()` (no intervening `start()`, no new chunks) returns `[1, 2]`
again — not the empty sequence the claim requires, because `stop()`
never clears the accumulator. -/
theorem second_stop_not_empty_counterexample :
    (((((Recorder.init.start true).1).callback none [1, 2]).1.stop).1 = [1, 2] ∧
      ((((((Recorder.init.start true).1).callback none [1, 2]).1.stop).2.stop).1 = [1, 2]) ∧
      ((((((Recorder.init.start true).1).callback none [1, 2]).1.stop).2.stop).1 ≠
        ([] : List Sample))) := by
  decide

/-- C2 amended: a `stop()` immediately following a `stop()` (no
intervening `start()`, no new chunks) succeeds and returns the same
sample sequence the first `stop()` returned — the accumulator is cleared
only by `start()`, so the result is empty exactly when the first result
was empty. -/
theorem second_stop_returns_same_buffer (r : Recorder) :
    (((r.stop).2).stop).1 = (r.stop).1 := by
  rw [stop_snd, stop_fst, stop_fst]

/-- C3: calling `start()` a second time without an intervening `stop()`
discards all chunks accumulated after the first `start()`; the next
`stop()` returns only the chunks delivered after the second `start()`. -/
theorem second_start_discards_first_session (r : Recorder)
    (obs₁ obs₂ : Option (List Sample → Except String Unit)) (cs ds : List Chunk) :
    (((((((r.start true).1).deliverAll obs₁ cs).start true).1).deliverAll obs₂ ds).stop).1 =
      ds.flatten :=
  started_deliver_stop _ obs₂ ds

/-- C4: `stop()` on a recorder on which `start()` was never called
returns the empty sample sequence and raises no error; the
`_stream_ready` wait is bounded (2 s timeout), which the model reflects
by `stop` being a total function. -/
theorem stop_without_start_returns_empty :
    Recorder.init.stop =
      ([], { frames := [], recording := false, streamOpen := false,
             streamReady := false }) := by
  decide

/-- C5 counterexample: when the device open inside `start()` fails, the
error does propagate to the `start()` caller, but the recorder is left
with `_recording = True` — not Idle, not as if `start()` had never been
called, refuting the claim. -/
theorem start_failure_not_idle_counterexample :
    (Recorder.init.start false).2 = some DeviceError.deviceUnavailable ∧
      (Recorder.init.start false).1.recording = true := by
  decide

/-- C5 amended: when the device open inside `start()` fails, the failure
propagates to the `start()` caller as the device error and no stream is
left open, but the recorder is left with its recording flag still set
(not Idle); its accumulator is empty, so a subsequent `stop()` returns
empty and clears the flag. -/
theorem start_failure_state (r : Recorder) :
    (r.start false).2 = some DeviceError.deviceUnavailable ∧
      (r.start false).1.streamOpen = false ∧
      (r.start false).1.recording = true ∧
      (r.start false).1.frames = [] ∧
      (((r.start false).1).stop).1 = [] := by
  refine ⟨rfl, rfl, rfl, rfl, ?_⟩
  rw [stop_fst]
  rfl

/-- C6: when the recorded buffer's duration is strictly below the
minimum threshold (default 0.3 s), the trigger-release step reports a
too-short outcome, returns the recorder to the non-recording idle state,
and never invokes the transcription engine — the step's result is the
same for every engine and carries no transcription. -/
theorem too_short_recording_skips_engine (r : Recorder)
    (h : (((r.stop).1.length : ℚ) / (SAMPLE_RATE : ℚ)) < min_duration) :
    ∀ engine : List Sample → String,
      stopAndTranscribe r min_duration engine =
        (SinkEvent.tooShort (((r.stop).1.length : ℚ) / (SAMPLE_RATE : ℚ)), (r.stop).2) ∧
        (stopAndTranscribe r min_duration engine).2.recording = false := by
  intro engine
  have hmain : stopAndTranscribe r min_duration engine =
      (SinkEvent.tooShort (((r.stop).1.length : ℚ) / (SAMPLE_RATE : ℚ)), (r.stop).2) := by
    simp only [stopAndTranscribe]
    rw [if_pos h]
  refine ⟨hmain, ?_⟩
  rw [hmain, stop_snd]

/-- Witness for C6 at the concrete recorder `Recorder.init`, whose
captured buffer is empty (duration 0 s < 0.3 s). -/
theorem too_short_recording_skips_engine_witness :
    ((((Recorder.init.stop).1.length : ℚ) / (SAMPLE_RATE : ℚ)) < min_duration) ∧
      stopAndTranscribe Recorder.init min_duration (fun _ => "hello") =
        (SinkEvent.tooShort (((Recorder.init.stop).1.length : ℚ) / (SAMPLE_RATE : ℚ)),
          (Recorder.init.stop).2) :=
  ⟨by norm_num [Recorder.init, Recorder.stop, SAMPLE_RATE, min_duration],
    (too_short_recording_skips_engine Recorder.init
      (by norm_num [Recorder.init, Recorder.stop, SAMPLE_RATE, min_duration])
      (fun _ => "hello")).1⟩

/-- C7: while recording, for every registered per-chunk observer and
every delivered chunk, the capture callback appends the chunk to the
accumulator and invokes the observer exactly once with the flattened
chunk, and this holds whether the observer succeeds or raises — the
exception is swallowed and the callback itself never raises. -/
theorem callback_swallows_observer_failure (r : Recorder)
    (f : List Sample → Except String Unit) (c : Chunk) (h : r.recording = true) :
    r.callback (some f) c = ({ r with frames := r.frames ++ [c] }, [c]) := by
  unfold Recorder.callback
  rw [if_pos h]
  cases hfc : f c <;> simp [hfc]

/-- Witness for C7: a freshly started recorder, an observer that always
raises, and the chunk `[5]` — the chunk is still appended and the
observer was invoked with it. -/
theorem callback_swallows_observer_failure_witness :
    ((Recorder.init.start true).1.recording = true) ∧
      (Recorder.init.start true).1.callback (some (fun _ => Except.error "boom")) [5] =
        ({ (Recorder.init.start true).1 with
            frames := (Recorder.init.start true).1.frames ++ [[5]] }, [[5]]) :=
  ⟨rfl, callback_swallows_observer_failure (Recorder.init.start true).1
    (fun _ => Except.error "boom") [5] rfl⟩

/-- C10: for every model (any list of segment texts the model could
yield), `transcribe` on a zero-length audio array returns the empty
string without invoking the model and without writing a temporary
file. -/
theorem transcribe_empty_returns_immediately (segments : List String)
    (samples : List Sample) (h : samples.length = 0) :
    transcribe segments samples =
      ("", { wroteTempFile := false, invokedModel := false }) := by
  unfold transcribe
  rw [if_pos h]

/-- Witness for C10 at the empty audio array. -/
theorem transcribe_empty_returns_immediately_witness :
    (([] : List Sample).length = 0) ∧
      transcribe ["dzien", "dobry"] [] =
        ("", { wroteTempFile := false, invokedModel := false }) :=
  ⟨rfl, transcribe_empty_returns_immediately ["dzien", "dobry"] [] rfl⟩

theorem mul_self_cast_mono {x y : Sample} (h : y.natAbs ≤ x.natAbs) :
    (y : ℚ) * y ≤ (x : ℚ) * x := by
  have hZ : |y| ≤ |x| := by
    rw [Int.abs_eq_natAbs, Int.abs_eq_natAbs]
    exact_mod_cast h
  have hy : |(y : ℚ)| ≤ |(x : ℚ)| := by
    exact_mod_cast hZ
  calc (y : ℚ) * y = |(y : ℚ)| * |(y : ℚ)| := (abs_mul_abs_self _).symm
    _ ≤ |(x : ℚ)| * |(x : ℚ)| := mul_self_le_mul_self (abs_nonneg _) hy
    _ = (x : ℚ) * x := abs_mul_abs_self _

theorem sumSq_cons (a : Sample) (l : List Sample) :
    sumSq (a :: l) = (a : ℚ) * a + sumSq l := by
  simp [sumSq]

theorem sumSq_nonneg (c : List Sample) : 0 ≤ sumSq c := by
  induction c with
  | nil => simp [sumSq]
  | cons a l ih =>
    simp only [sumSq, List.map_cons, List.sum_cons] at *
    exact add_nonneg (mul_self_nonneg _) ih

theorem sumSq_mono {a b : List Sample}
    (h : List.Forall₂ (fun x y => y.natAbs ≤ x.natAbs) a b) :
    sumSq b ≤ sumSq a := by
  induction h with
  | nil => exact le_refl _
  | cons hxy _ ih =>
    simp only [sumSq, List.map_cons, List.sum_cons] at *
    exact add_le_add (mul_self_cast_mono hxy) ih

theorem rms_level_mono {a b : List Sample}
    (h : List.Forall₂ (fun x y => y.natAbs ≤ x.natAbs) a b) :
    rms_level b ≤ rms_level a := by
  have hlen : a.length = b.length := h.length_eq
  rcases a with _ | ⟨x, xs⟩
  · cases h
    simp [rms_level]
  · rcases b with _ | ⟨y, ys⟩
    · simp at hlen
    · have hna : (x :: xs).length ≠ 0 := by simp
      have hnb : (y :: ys).length ≠ 0 := by simp
      rw [rms_level, rms_level, if_neg hna, if_neg hnb]
      have hq : meanSq (y :: ys) ≤ meanSq (x :: xs) := by
        rw [meanSq, meanSq, ← hlen]
        have hlpos : (0 : ℚ) < ((x :: xs).length : ℚ) := by
          exact_mod_cast Nat.succ_pos xs.length
        exact (div_le_div_iff_of_pos_right hlpos).mpr (sumSq_mono h)
      have hr : ((meanSq (y :: ys) : ℚ) : ℝ) ≤ ((meanSq (x :: xs) : ℚ) : ℝ) := by
        exact_mod_cast hq
      have hsqrt := Real.sqrt_le_sqrt hr
      have hdiv : Real.sqrt ((meanSq (y :: ys) : ℚ) : ℝ) / 32768 ≤
          Real.sqrt ((meanSq (x :: xs) : ℚ) : ℝ) / 32768 :=
        (div_le_div_iff_of_pos_right (by norm_num : (0 : ℝ) < 32768)).mpr hsqrt
      exact min_le_min hdiv (le_refl 1)

theorem sumSq_fullscale_lower : ∀ c : List Sample,
    (∀ s ∈ c, s.natAbs = 32767 ∨ s.natAbs = 32768) →
    (c.length : ℚ) * (32767 * 32767) ≤ sumSq c := by
  intro c
  induction c with
  | nil => intro _; simp [sumSq]
  | cons a l ih =>
    intro h
    have haZ : (32767 * 32767 : ℤ) ≤ a * a := by
      rcases h a (List.mem_cons_self a l) with h1 | h1 <;>
        rw [← pow_two a, ← Int.natAbs_sq, h1] <;> norm_num
    have ha : (32767 * 32767 : ℚ) ≤ (a : ℚ) * a := by
      exact_mod_cast haZ
    have hl := ih (fun s hs => h s (List.mem_cons_of_mem a hs))
    rw [sumSq_cons, List.length_cons]
    have hcast : ((l.length + 1 : ℕ) : ℚ) = (l.length : ℚ) + 1 := by
      push_cast
      ring
    rw [hcast]
    linarith

theorem meanSq_fullscale_lower (c : List Sample) (hne : c ≠ [])
    (h : ∀ s ∈ c, s.natAbs = 32767 ∨ s.natAbs = 32768) :
    (32767 * 32767 : ℚ) ≤ meanSq c := by
  have hlpos : (0 : ℚ) < (c.length : ℚ) := by
    have := List.length_pos.mpr hne
    exact_mod_cast this
  rw [meanSq, le_div_iff₀ hlpos]
  have := sumSq_fullscale_lower c h
  linarith

theorem rms_level_fullscale {c : List Sample} (hne : c ≠ [])
    (h : ∀ s ∈ c, s.natAbs = 32767 ∨ s.natAbs = 32768) :
    1 / 2 ≤ rms_level c ∧ rms_level c ≤ 1 := by
  have hlen : ¬c.length = 0 := by simpa [List.length_eq_zero] using hne
  rw [rms_level, if_neg hlen]
  constructor
  · refine le_min ?_ (by norm_num)
    have h1 : ((32767 : ℝ)) ^ 2 ≤ ((meanSq c : ℚ) : ℝ) := by
      have h0 := meanSq_fullscale_lower c hne h
      have h2 : (32767 : ℝ) * 32767 ≤ ((meanSq c : ℚ) : ℝ) := by
        exact_mod_cast h0
      rw [pow_two]
      exact h2
    have h2 : (32767 : ℝ) ≤ Real.sqrt ((meanSq c : ℚ) : ℝ) :=
      calc (32767 : ℝ) = Real.sqrt ((32767 : ℝ) ^ 2) :=
            (Real.sqrt_sq (by norm_num)).symm
        _ ≤ Real.sqrt ((meanSq c : ℚ) : ℝ) := Real.sqrt_le_sqrt h1
    rw [le_div_iff₀ (by norm_num : (0 : ℝ) < 32768)]
    linarith
  · exact min_le_right _ _

theorem rms_level_eq_rmsSpec (c : List Sample) : rms_level c = rmsSpec c := by
  rcases c with _ | ⟨a, l⟩
  · simp [rms_level, rmsSpec]
  · have h1 : ¬(a :: l).length = 0 := by simp
    have h2 : (a :: l) ≠ [] := by simp
    rw [rms_level, rmsSpec, if_neg h1, if_neg h2, meanSq, sumSq]
    have hfun : (fun s : Sample => (s : ℚ) * s) = fun s : Sample => (s : ℚ) ^ 2 := by
      funext s
      exact (pow_two _).symm
    rw [hfun]

theorem rms_level_nonneg_le_one (c : List Sample) :
    0 ≤ rms_level c ∧ rms_level c ≤ 1 := by
  rw [rms_level]
  by_cases h : c.length = 0
  · rw [if_pos h]; norm_num
  · rw [if_neg h]
    refine ⟨le_min ?_ (by norm_num), min_le_right _ _⟩
    exact div_nonneg (Real.sqrt_nonneg _) (by norm_num)

theorem rms_level_all_zero {c : List Sample} (h : ∀ s ∈ c, s = 0) :
    rms_level c = 0 := by
  rw [rms_level]
  by_cases hl : c.length = 0
  · rw [if_pos hl]
  · rw [if_neg hl]
    have hs : sumSq c = 0 := by
      rw [sumSq]
      apply List.sum_eq_zero
      intro x hx
      rcases List.mem_map.mp hx with ⟨s, hsmem, rfl⟩
      rw [h s hsmem]
      norm_num
    rw [meanSq, hs, zero_div]
    have hzero : ((0 : ℚ) : ℝ) = 0 := by norm_num
    rw [hzero, Real.sqrt_zero, zero_div]
    exact min_eq_left (by norm_num)

/-- C8: `rms_level` computes exactly the spec's formula (root-mean-square
of the samples divided by 32768, clamped to at most 1.0), its result
always lies in the interval from 0 to 1, it returns 0.0 on the empty
chunk, and it returns 0.0 on every all-zero chunk. -/
theorem rms_level_matches_spec :
    (∀ c : List Sample, rms_level c = rmsSpec c) ∧
    (∀ c : List Sample, 0 ≤ rms_level c ∧ rms_level c ≤ 1) ∧
    rms_level [] = 0 ∧
    (∀ c : List Sample, (∀ s ∈ c, s = 0) → rms_level c = 0) :=
  ⟨rms_level_eq_rmsSpec, rms_level_nonneg_le_one, by simp [rms_level],
    fun _ h => rms_level_all_zero h⟩

/-- Witness for C8 at the concrete all-zero chunk `[0, 0]`. -/
theorem rms_level_matches_spec_witness :
    (∀ s ∈ ([0, 0] : List Sample), s = 0) ∧ rms_level [0, 0] = 0 :=
  ⟨by decide, rms_level_matches_spec.2.2.2 [0, 0] (by decide)⟩

/-- C9: the level meter is monotone in loudness — if two chunks have the
same length and the samples of the first dominate those of the second in
magnitude pointwise, its level is at least the second's — and every
nonempty full-scale chunk (all samples of maximum int16 magnitude,
32767 or 32768) has a level in the interval from 0.5 to 1. -/
theorem rms_level_monotone_and_fullscale :
    (∀ a b : List Sample,
        List.Forall₂ (fun x y => y.natAbs ≤ x.natAbs) a b →
          rms_level b ≤ rms_level a) ∧
    (∀ c : List Sample, c ≠ [] →
        (∀ s ∈ c, s.natAbs = 32767 ∨ s.natAbs = 32768) →
          1 / 2 ≤ rms_level c ∧ rms_level c ≤ 1) :=
  ⟨fun _ _ h => rms_level_mono h, fun _ hne h => rms_level_fullscale hne h⟩

/-- Witness for C9: the quieter chunk `[3]` against the louder `[100]`,
and the full-scale chunk `[32767]`. -/
theorem rms_level_monotone_and_fullscale_witness :
    rms_level [3] ≤ rms_level [100] ∧
      1 / 2 ≤ rms_level [32767] ∧ rms_level [32767] ≤ 1 :=
  ⟨rms_level_monotone_and_fullscale.1 [100] [3]
      (List.Forall₂.cons (by decide) List.Forall₂.nil),
    (rms_level_monotone_and_fullscale.2 [32767] (by decide) (by decide)).1,
    (rms_level_monotone_and_fullscale.2 [32767] (by decide) (by decide)).2⟩
